import Mathlib

/-!
Verification development for the kubecuro manifest-healing engine.

Each Python component that the checked properties concern is shallowly
embedded as an executable Lean function over an explicit data model:

* `Node` models the Python/ruamel value universe (dict / list / scalars);
* `SchemaNode` models one node of the distilled catalog (a Python dict
  with keys `required`, `fields`, `type`, `items`; the `truthy` flag
  records the dict's Python truthiness, used by `if not field_info`);
* fallible Python code (uncaught exceptions) is embedded in `Except`.

String handling mirrors CPython on the ASCII, LF-normalized inputs the
engine produces (the lexer normalizes CRLF before the phases run).
-/

namespace Kubecuro

/-- Characters Python's `str.strip()` / `str.isspace()` treat as whitespace
(ASCII range). -/
def isPySpace (c : Char) : Bool :=
  c = ' ' || c = '\t' || c = '\n' || c = '\r' || c = '\x0b' || c = '\x0c'

/-- `str.lstrip()` on a list of characters. -/
def pyLstripL (l : List Char) : List Char := l.dropWhile isPySpace

/-- `str.rstrip()` on a list of characters. -/
def pyRstripL (l : List Char) : List Char := (l.reverse.dropWhile isPySpace).reverse

/-- `str.strip()` on a list of characters. -/
def pyStripL (l : List Char) : List Char := pyRstripL (pyLstripL l)

/-- `str.lstrip()`. -/
def pyLstrip (s : String) : String := ⟨pyLstripL s.data⟩

/-- `str.rstrip()`. -/
def pyRstrip (s : String) : String := ⟨pyRstripL s.data⟩

/-- `str.strip()`. -/
def pyStrip (s : String) : String := ⟨pyStripL s.data⟩

/-- `str.lstrip(chars)`: drop leading characters belonging to `cs`. -/
def pyLstripSet (s : String) (cs : List Char) : String :=
  ⟨s.data.dropWhile (fun c => cs.contains c)⟩

/-- Does `needle` occur as a contiguous sublist of `hay`?  Models Python's
`sub in s` substring test. -/
def listHasInfix (needle hay : List Char) : Bool :=
  match hay with
  | [] => needle.isEmpty
  | _ :: t => needle.isPrefixOf hay || listHasInfix needle t

/-- Python `sub in s` on strings. -/
def strHasSub (s sub : String) : Bool := listHasInfix sub.data s.data

/-- `s.startswith(pre)` (structural, so concrete runs reduce in the
kernel). -/
def strStartsWith (s pre : String) : Bool := pre.data.isPrefixOf s.data

/-- Split a character list at every `'\n'` (`cur` holds the reversed
characters of the line being assembled). -/
def splitNlAux : List Char → List Char → List String
  | [], cur => [⟨cur.reverse⟩]
  | '\n' :: rest, cur => String.mk cur.reverse :: splitNlAux rest []
  | c :: rest, cur => splitNlAux rest (c :: cur)

/-- Python `str.splitlines()` for LF-separated text (the engine normalizes
line endings to LF before any phase that splits lines): empty text gives
no lines, and a trailing newline produces no empty final line. -/
def pySplitlines (s : String) : List String :=
  if s = "" then []
  else
    let parts := splitNlAux s.data []
    if parts.getLast? = some "" then parts.dropLast else parts

/-- Leading-whitespace count of a line: `len(line) - len(line.lstrip())`. -/
def lineIndent (s : String) : Nat := s.data.length - (pyLstripL s.data).length

/-- The value universe produced by the healing phases: strings, integers,
booleans, `None`, dicts (`CommentedMap`, modelled as an ordered association
list with string keys) and lists. -/
inductive Node where
  | str (s : String)
  | intv (n : Int)
  | boolv (b : Bool)
  | nullv
  | map (entries : List (String × Node))
  | arr (elems : List Node)

/-- First binding of `k` in an ordered dict (`d.get(k)` / `d[k]`). -/
def mapGet (es : List (String × Node)) (k : String) : Option Node :=
  match es with
  | [] => none
  | (k', v) :: t => if k' = k then some v else mapGet t k

/-- `k in d` for an ordered dict. -/
def containsKey (es : List (String × Node)) (k : String) : Bool :=
  match es with
  | [] => false
  | (k', _) :: t => k' = k || containsKey t k

/-- `d[k] = v`: replace in place if the key exists, else append (Python
dict insertion-order semantics). -/
def mapSet (es : List (String × Node)) (k : String) (v : Node) :
    List (String × Node) :=
  match es with
  | [] => [(k, v)]
  | (k', v') :: t => if k' = k then (k, v) :: t else (k', v') :: mapSet t k v

/-- Python truthiness of a `Node` value. -/
def pyTruthy : Node → Bool
  | .str s => s ≠ ""
  | .intv n => n ≠ 0
  | .boolv b => b
  | .nullv => false
  | .map es => !es.isEmpty
  | .arr l => !l.isEmpty

/-!
### Validator (`src/kubecuro/validator/validator.py`, `KubeValidator`)
-/

/-- One node of the distilled catalog: a Python dict with (optional) keys
`required`, `fields`, `type`, `items`.  `truthy` records the Python
truthiness of the dict itself (`if not schema` / `if not field_info`);
`required` and `fields` model `.get("required", [])` / `.get("fields", {})`,
`etype` models `.get("type")` and `items` models `.get("items")`. -/
inductive SchemaNode where
  | mk (truthy : Bool) (required : List String)
       (fields : List (String × SchemaNode))
       (etype : Option String) (items : Option SchemaNode)

def SchemaNode.truthy : SchemaNode → Bool
  | .mk t _ _ _ _ => t

def SchemaNode.required : SchemaNode → List String
  | .mk _ r _ _ _ => r

def SchemaNode.fields : SchemaNode → List (String × SchemaNode)
  | .mk _ _ f _ _ => f

def SchemaNode.etype : SchemaNode → Option String
  | .mk _ _ _ e _ => e

def SchemaNode.items : SchemaNode → Option SchemaNode
  | .mk _ _ _ _ i => i

/-- The catalog: a dict keyed by Kind name. -/
def Catalog := List (String × SchemaNode)

/-- `catalog.get(kind)` for a string key. -/
def catGet (cat : Catalog) (k : String) : Option SchemaNode :=
  match cat with
  | [] => none
  | (k', v) :: t => if k' = k then some v else catGet t k

/-- First entry of `required` missing from the document, in declaration
order (`for req in schema.get("required", []): if req not in doc`). -/
def findMissing (req : List String) (es : List (String × Node)) :
    Option String :=
  match req with
  | [] => none
  | r :: rs => if containsKey es r then findMissing rs es else some r

/-- `field_info = schema_fields.get(key); if not field_info` — the lookup
yields a usable schema only when the entry exists and is truthy. -/
def lookupTruthyField (schema : SchemaNode) (k : String) : Option SchemaNode :=
  match catGet schema.fields k with
  | none => none
  | some fi => if fi.truthy then some fi else none

mutual

/-- `KubeValidator._deep_validate` on a dict's entry list: required-field
check, then the per-entry loop (`checkEntries`).  Returns
`(accepted, diagnostic)`. -/
def deepValidate (es : List (String × Node)) (schema : SchemaNode)
    (path : String) (strict : Bool) : Bool × String :=
  match findMissing schema.required es with
  | some r =>
      (false, "Structural Error: Field '" ++ path ++ r ++
        "' is required but missing.")
  | none => checkEntries es schema path strict

/-- The `for key, value in doc.items()` loop of `_deep_validate`:
unknown-field policy, object/array shape checks, recursion into
object-typed fields and into index 0 of array-typed fields. -/
def checkEntries (es : List (String × Node)) (schema : SchemaNode)
    (path : String) (strict : Bool) : Bool × String :=
  match es with
  | [] => (true, "Manifest passes structural integrity check.")
  | (k, v) :: rest =>
    match lookupTruthyField schema k with
    | none =>
        if strict then
          (false, "Strict Mode Violation: Unknown field '" ++ path ++ k ++
            "'. Possible typo?")
        else checkEntries rest schema path strict
    | some fi =>
        if fi.etype = some "object" then
          match v with
          | .map sub =>
              match deepValidate sub fi (path ++ k ++ ".") strict with
              | (true, _) => checkEntries rest schema path strict
              | (false, e) => (false, e)
          | _ => (false, "Logic Error: '" ++ path ++ k ++
                   "' must be a map/object.")
        else if fi.etype = some "array" then
          match v with
          | .arr l =>
              match fi.items, l with
              | some isch, .map sub0 :: _ =>
                  if isch.truthy then
                    match deepValidate sub0 isch (path ++ k ++ "[0].") strict with
                    | (true, _) => checkEntries rest schema path strict
                    | (false, e) => (false, e)
                  else checkEntries rest schema path strict
              | _, _ => checkEntries rest schema path strict
          | _ => (false, "Logic Error: '" ++ path ++ k ++
                   "' must be a list/sequence.")
        else checkEntries rest schema path strict

end

/-- Display form of a scalar used in the unknown-Kind warning f-string. -/
def nodeDisplay : Node → String
  | .str s => s
  | .intv n => toString n
  | .boolv b => if b then "True" else "False"
  | .nullv => "None"
  | .map _ => "dict"
  | .arr _ => "list"

/-- `KubeValidator.validate_reconstruction`.  `Except.error` models an
uncaught Python exception (`catalog.get(kind)` with an unhashable kind). -/
def validateReconstruction (cat : Catalog) (doc : Node) (strict : Bool) :
    Except String (Bool × String) :=
  match doc with
  | .map es =>
    match findMissing ["apiVersion", "kind", "metadata"] es with
    | some f =>
        .ok (false, "Validation Failed: Missing required top-level field '" ++
          f ++ "'.")
    | none =>
      match mapGet es "kind" with
      | some (.map _) => .error "TypeError: unhashable type"
      | some (.arr _) => .error "TypeError: unhashable type"
      | kv =>
        let schemaOpt :=
          match kv with
          | some (.str s) => catGet cat s
          | _ => none
        let warn :=
          "Warning: Kind '" ++ (match kv with
            | some n => nodeDisplay n
            | none => "None") ++ "' is outside local catalog. Basic validation only."
        match schemaOpt with
        | some schema =>
            if schema.truthy then .ok (deepValidate es schema "" strict)
            else .ok (true, warn)
        | none => .ok (true, warn)
  | _ => .ok (false, "Aborting: Healed content is not a valid dictionary structure.")

/-!
### Positions the validator's walk actually visits
-/

/-- The entry list contains, at a position the `_deep_validate` walk
visits (an own entry, a subtree of an object-typed field, or a subtree of
the first element of an array-typed field with a truthy item schema), a
field key unknown to the governing schema. -/
inductive HasUnknownVisited : List (String × Node) → SchemaNode → Prop where
  | head_unknown (k : String) (v : Node) (rest : List (String × Node))
      (schema : SchemaNode) (h : lookupTruthyField schema k = none) :
      HasUnknownVisited ((k, v) :: rest) schema
  | head_object (k : String) (sub : List (String × Node))
      (rest : List (String × Node)) (schema fi : SchemaNode)
      (hl : lookupTruthyField schema k = some fi)
      (ho : fi.etype = some "object")
      (hsub : HasUnknownVisited sub fi) :
      HasUnknownVisited ((k, Node.map sub) :: rest) schema
  | head_array (k : String) (sub0 : List (String × Node)) (tail : List Node)
      (rest : List (String × Node)) (schema fi isch : SchemaNode)
      (hl : lookupTruthyField schema k = some fi)
      (ha : fi.etype = some "array")
      (hi : fi.items = some isch) (ht : isch.truthy = true)
      (hsub : HasUnknownVisited sub0 isch) :
      HasUnknownVisited ((k, Node.arr (Node.map sub0 :: tail)) :: rest) schema
  | tail (e : String × Node) (rest : List (String × Node))
      (schema : SchemaNode) (h : HasUnknownVisited rest schema) :
      HasUnknownVisited (e :: rest) schema

/-!
### Concrete catalogs and documents used by scenario-level statements
-/

/-- A leaf catalog entry: a truthy dict with no type/fields/required. -/
def leafSchema : SchemaNode := SchemaNode.mk true [] [] none none

/-- Catalog node for a Kind with three declared leaf fields. -/
def podSchemaC : SchemaNode :=
  SchemaNode.mk true []
    [("apiVersion", leafSchema), ("kind", leafSchema), ("metadata", leafSchema)]
    none none

def catalogC : Catalog := [("Pod", podSchemaC)]

/-- Entry list of the scenario C document: well-formed except for the
unknown `typo` field. -/
def docTypoEntries : List (String × Node) :=
  [("apiVersion", Node.str "v1"), ("kind", Node.str "Pod"),
   ("metadata", Node.map []), ("typo", Node.boolv true)]

/-- Scenario C document. -/
def docTypo : Node := Node.map docTypoEntries

/-- Item schema declaring one leaf field `name`. -/
def itemSchemaC : SchemaNode :=
  SchemaNode.mk true [] [("name", leafSchema)] none none

/-- Catalog node whose `spec` field is an array of `itemSchemaC` items. -/
def podSchemaArr : SchemaNode :=
  SchemaNode.mk true []
    [("apiVersion", leafSchema), ("kind", leafSchema), ("metadata", leafSchema),
     ("spec", SchemaNode.mk true [] [] (some "array") (some itemSchemaC))]
    none none

def catalogArr : Catalog := [("Pod", podSchemaArr)]

/-- Entry list of a document whose only unknown field (`typo`) sits in
the second element of the catalog-declared array `spec`. -/
def docTypoDeepEntries : List (String × Node) :=
  [("apiVersion", Node.str "v1"), ("kind", Node.str "Pod"),
   ("metadata", Node.map []),
   ("spec", Node.arr [Node.map [("name", Node.str "a")],
                      Node.map [("typo", Node.boolv true)]])]

/-- Document with the unknown field only at array index 1. -/
def docTypoDeep : Node := Node.map docTypoDeepEntries

/-- Same document with the offending second array element removed. -/
def docOkArr : Node :=
  Node.map [("apiVersion", Node.str "v1"), ("kind", Node.str "Pod"),
            ("metadata", Node.map []),
            ("spec", Node.arr [Node.map [("name", Node.str "a")]])]

/-!
### Scanner (`src/kubecuro/healing/scanner.py`, `KubeScanner`)
-/

/-- One decomposed source line (`core/models.py`, `Shard`).  The values
the scanner and lexer store are optional strings. -/
structure Shard where
  lineNo : Nat
  indent : Nat
  key : String
  value : Option String
  isListItem : Bool
  comment : Option String := none
  rawLine : String := ""

/-- Characters of the regex class `[\w\.\-\/]` (ASCII `\w`). -/
def isKeyChar (c : Char) : Bool :=
  c.isAlphanum || c = '_' || c = '.' || c = '-' || c = '/'

/-- Match `([\w\.\-\/]+)\s*:\s*(.*)$` at the head of `l`: the maximal
key-character run, optional whitespace, a colon, optional whitespace,
then the rest of the line as the captured value.  (The greedy key run
needs no backtracking: shortening it re-exposes a key character, which
can satisfy neither `\s*` nor `:`.) -/
def matchKeyColon (l : List Char) : Option (String × String) :=
  let key := l.takeWhile isKeyChar
  if key.isEmpty then none
  else
    let rest1 := (l.drop key.length).dropWhile isPySpace
    match rest1 with
    | ':' :: r => some (⟨key⟩, ⟨r.dropWhile isPySpace⟩)
    | _ => none

/-- `KubeScanner.LINE_PATTERN`:
`^(\s*)(?:(-\s*))?([\w\.\-\/]+)\s*:\s*(.*)$`.
Returns (indent width, list dash present, key, value).  The optional dash
group is tried first (greedy); if no key/colon follows it, the regex
retries without it, in which case the key itself may start with `-`.
(A dash group with fewer trailing spaces always fails, since the key
would then start with a space character.) -/
def matchLinePattern (line : String) : Option (Nat × Bool × String × String) :=
  let l := line.data
  let ws := l.takeWhile isPySpace
  let rest := l.drop ws.length
  match rest with
  | '-' :: afterDash =>
      let afterSp := afterDash.dropWhile isPySpace
      (match matchKeyColon afterSp with
       | some (k, v) => some (ws.length, true, k, v)
       | none =>
         match matchKeyColon rest with
         | some (k, v) => some (ws.length, false, k, v)
         | none => none)
  | _ =>
      match matchKeyColon rest with
      | some (k, v) => some (ws.length, false, k, v)
      | none => none

/-- `str.strip(cs)` on a character list: remove leading and trailing
characters from `cs`. -/
def pyStripSetL (l : List Char) (cs : List Char) : List Char :=
  ((l.dropWhile (cs.contains ·)).reverse.dropWhile (cs.contains ·)).reverse

/-- `KubeScanner._clean_id`: `val.strip().strip("'").strip('"')`. -/
def cleanId (v : String) : String :=
  ⟨pyStripSetL (pyStripSetL (pyStripL v.data) ['\'']) ['"']⟩

/-- Python truthiness of an optional string. -/
def optTruthy : Option String → Bool
  | none => false
  | some s => s ≠ ""

/-- The scanner's mutable identity state (`found_kind` / `found_api`). -/
structure ScannerState where
  foundKind : Option String
  foundApi : Option String

/-- One iteration of `KubeScanner.scan`'s loop: skip blank and pure
comment lines, regex-match, update the identity state, emit a shard
(`_handle_anomaly` for lines the regex misses). -/
def scanLine (st : ScannerState) (lineNo : Nat) (line : String) :
    ScannerState × Option Shard :=
  let stripped := pyStrip line
  if stripped = "" || strStartsWith stripped "#" then (st, none)
  else
    match matchLinePattern line with
    | some (ind, dash, k, v) =>
        let cleanValue : Option String := if v = "" then none else some (pyStrip v)
        let st1 := if k = "kind" && optTruthy cleanValue then
            { st with foundKind := some (cleanId (pyStrip v)) } else st
        let st2 := if k = "apiVersion" && optTruthy cleanValue then
            { st1 with foundApi := some (cleanId (pyStrip v)) } else st1
        (st2, some { lineNo := lineNo, indent := ind, key := k,
                     value := cleanValue, isListItem := dash,
                     rawLine := line })
    | none =>
        let strippedL := pyLstrip line
        let isList := strStartsWith strippedL "-"
        let content := if isList then pyLstrip ⟨strippedL.data.drop 1⟩ else strippedL
        (st, some { lineNo := lineNo, indent := lineIndent line, key := "",
                    value := some content, isListItem := isList,
                    rawLine := line })

/-- The line loop of `KubeScanner.scan`. -/
def scanLines (st : ScannerState) (lineNo : Nat) (lines : List String) :
    ScannerState × List Shard :=
  match lines with
  | [] => (st, [])
  | l :: rest =>
    let p := scanLine st lineNo l
    let q := scanLines p.1 (lineNo + 1) rest
    (q.1, match p.2 with | some s => s :: q.2 | none => q.2)

/-- `KubeScanner.scan`: the RESET GATE clears both identity fields, then
the text is processed line by line; `st` is the scanner's state left over
from any earlier `scan` calls. -/
def scannerScan (_st : ScannerState) (rawText : String) :
    ScannerState × List Shard :=
  scanLines { foundKind := none, foundApi := none } 1 (pySplitlines rawText)

/-- `KubeScanner.get_identity`. -/
def getIdentity (st : ScannerState) : Option String × Option String :=
  (st.foundKind, st.foundApi)

/-- The value a line contributes to the `kind` identity: the stripped
value of a regex-matched non-comment line whose key is `kind` and whose
value is truthy both before and after stripping. -/
def kindValOf (line : String) : Option String :=
  let stripped := pyStrip line
  if stripped = "" || strStartsWith stripped "#" then none
  else
    match matchLinePattern line with
    | some (_, _, k, v) =>
        if k = "kind" && (v ≠ "" && pyStrip v ≠ "") then some (pyStrip v) else none
    | none => none

/-- Same for the `apiVersion` identity. -/
def apiValOf (line : String) : Option String :=
  let stripped := pyStrip line
  if stripped = "" || strStartsWith stripped "#" then none
  else
    match matchLinePattern line with
    | some (_, _, k, v) =>
        if k = "apiVersion" && (v ≠ "" && pyStrip v ≠ "") then some (pyStrip v) else none
    | none => none

/-- The identity the spec describes, stated independently of the fold:
the LAST contributing `kind` line of the text, quote-stripped. -/
def lastKindOf (text : String) : Option String :=
  ((pySplitlines text).filterMap kindValOf).getLast?.map cleanId

/-- The last contributing `apiVersion` line of the text, quote-stripped. -/
def lastApiOf (text : String) : Option String :=
  ((pySplitlines text).filterMap apiValOf).getLast?.map cleanId

/-!
### Line repairer (`src/kubecuro/healing/lexer.py`, `KubeLexer`) and
comment shadow (`src/kubecuro/healing/shadow.py`, `KubeShadow`)
-/

/-- The loop of `KubeLexer._find_comment_split` over the remaining
characters: `i` is the current index, `prev` the previous original
character, and the three flags mirror `in_double_quote`,
`in_single_quote`, `escaped`.  `none` models the `-1` return. -/
def findCommentSplitAux : List Char → Nat → Option Char → Bool → Bool → Bool →
    Option Nat
  | [], _, _, _, _, _ => none
  | c :: rest, i, prev, inD, inS, esc =>
    if esc then findCommentSplitAux rest (i + 1) (some c) inD inS false
    else if c = '\\' then findCommentSplitAux rest (i + 1) (some c) inD inS true
    else
      let inD' := if c = '"' && !inS then !inD else inD
      let inS' := if c = '\'' && !inD then !inS else inS
      if c = '#' && !inD' && !inS' &&
          (i = 0 || (match prev with | some p => isPySpace p | none => false)) then
        some i
      else findCommentSplitAux rest (i + 1) (some c) inD' inS' false

/-- `KubeLexer._find_comment_split`: index of the first unquoted `#`
preceded by whitespace or line start (`none` = Python's `-1`). -/
def findCommentSplit (text : String) : Option Nat :=
  findCommentSplitAux text.data 0 none false false false

/-- The loop of `KubeShadow._find_safe_comment_idx`, translated from
`shadow.py` independently of the lexer's loop. -/
def findSafeCommentIdxAux : List Char → Nat → Option Char → Bool → Bool → Bool →
    Option Nat
  | [], _, _, _, _, _ => none
  | c :: rest, i, prev, inD, inS, esc =>
    if esc then findSafeCommentIdxAux rest (i + 1) (some c) inD inS false
    else if c = '\\' then findSafeCommentIdxAux rest (i + 1) (some c) inD inS true
    else
      let inD' := if c = '"' && !inS then !inD else inD
      let inS' := if c = '\'' && !inD then !inS else inS
      if c = '#' && !inD' && !inS' &&
          (i = 0 || (match prev with | some p => isPySpace p | none => false)) then
        some i
      else findSafeCommentIdxAux rest (i + 1) (some c) inD' inS' false

/-- `KubeShadow._find_safe_comment_idx` (`none` = Python's `-1`). -/
def findSafeCommentIdx (text : String) : Option Nat :=
  findSafeCommentIdxAux text.data 0 none false false false

/-- `line.replace('\t', '  ')`. -/
def tabExpand (s : String) : String :=
  ⟨s.data.flatMap (fun c => if c = '\t' then [' ', ' '] else [c])⟩

/-- `[a-zA-Z]` of the colon-repair regex. -/
def isAsciiLetter (c : Char) : Bool := c.isAlpha

/-- One pass of `re.sub(r'(?<!http)(?<!https):(?!\s)([a-zA-Z])', ': \1', s)`:
`origRev` holds the original characters already consumed (reversed) so the
lookbehinds inspect the original string, and `acc` the output (reversed). -/
def colonFixAux : List Char → List Char → List Char → List Char
  | [], _, acc => acc.reverse
  | ':' :: d :: rest2, origRev, acc =>
      if isAsciiLetter d && !(origRev.take 4 = ['p', 't', 't', 'h']) &&
          !(origRev.take 5 = ['s', 'p', 't', 't', 'h']) then
        colonFixAux rest2 (d :: ':' :: origRev) (d :: ' ' :: ':' :: acc)
      else colonFixAux (d :: rest2) (':' :: origRev) (':' :: acc)
  | c :: rest, origRev, acc => colonFixAux rest (c :: origRev) (c :: acc)

/-- The colon repair `kind:Pod` → `kind: Pod` (URL schemes protected by
the lookbehinds). -/
def colonFix (s : String) : String := ⟨colonFixAux s.data [] []⟩

/-- `re.search(r'image[:\s]*[a-zA-Z0-9/]', s) is not None`: some suffix
starts with `image`, then colons/whitespace, then an alphanumeric or `/`.
(Only the maximal `[:\s]` run matters: its members can never satisfy the
final class.) -/
def hasImagePat : List Char → Bool
  | [] => false
  | l@(_ :: t) =>
    (if ['i', 'm', 'a', 'g', 'e'].isPrefixOf l then
       match (l.drop 5).dropWhile (fun c => c = ':' || isPySpace c) with
       | c :: _ => c.isAlphanum || c = '/'
       | [] => false
     else false) || hasImagePat t

/-- The stuck-dash fix: `-x` becomes `- x` when a letter follows the
dash (`repair_line` step 4, first rewrite). -/
def dashFix (s : String) : String :=
  match s.data with
  | '-' :: c :: rest => if c.isAlpha then ⟨'-' :: ' ' :: c :: rest⟩ else s
  | _ => s

/-- `repair_line` step 4 on the stripped code part: the dash fix, then —
only when the image pattern matches nowhere in the line — the colon fix.
The image exemption is line-wide: one match disables the colon rewrite
for the entire line. -/
def dashColonFix (s : String) : String :=
  let s2 := dashFix s
  if hasImagePat s2.data then s2 else colonFix s2

/-- The lexer's block-scalar state (`in_block`, `block_indent`). -/
structure LexState where
  inBlock : Bool
  blockIndent : Nat

/-- `KubeLexer.repair_line`: tab expansion and right strip, block-scalar
pass-through, comment separation, the stuck-dash fix, the colon fix
(suppressed line-wide when the image pattern matches anywhere), and the
block-state update.  Returns the new state and `(indent, code, comment)`;
Python's `None` comment is `none` and its `""` comment is `some ""`. -/
def repairLine (st : LexState) (line : String) :
    LexState × (Nat × String × Option String) :=
  let rawLine := pyRstrip (tabExpand line)
  let content := pyLstrip rawLine
  if content = "" then (st, (0, "", some ""))
  else
    let indent := lineIndent rawLine
    let st1 :=
      if st.inBlock &&
          (decide (indent ≤ st.blockIndent) &&
            (strHasSub content ":" || strStartsWith content "-")) then
        { st with inBlock := false }
      else st
    if st1.inBlock then (st1, (indent, content, some ""))
    else
      let splitIdx := findCommentSplit rawLine
      let codePart0 : String :=
        match splitIdx with
        | some i => ⟨rawLine.data.take i⟩
        | none => rawLine
      let commentPart : Option String :=
        match splitIdx with
        | some i => some (pyLstripSet ⟨rawLine.data.drop i⟩ ['#', ' '])
        | none => none
      let codePart3 := dashColonFix (pyLstrip codePart0)
      let newSt :=
        if strHasSub codePart3 "|" || strHasSub codePart3 ">" then
          { inBlock := true, blockIndent := indent }
        else st1
      (newSt, (indent, codePart3, commentPart))

/-!
### Magnetic snap (`src/kubecuro/healing/structurer.py`,
`KubeStructurer._apply_magnetic_snap`)
-/

/-- Python `round(n / 2) * 2` for a natural `n`: nearest multiple of two,
ties resolved to the even half (banker's rounding of `n / 2`). -/
def pyRound2 (n : Nat) : Nat :=
  if n % 2 = 0 then n
  else
    let k := n / 2
    if k % 2 = 0 then 2 * k else 2 * k + 2

/-- `KubeStructurer._is_anchor_or_alias`:
`re.match(r'^[ \t]*[&*][a-zA-Z0-9_-]+', line.strip())` (the stripped
line begins with `&` or `*` followed by at least one `[a-zA-Z0-9_-]`). -/
def isAnchorOrAlias (line : String) : Bool :=
  match (pyStrip line).data with
  | c :: d :: _ => (c = '&' || c = '*') && (d.isAlphanum || d = '_' || d = '-')
  | _ => false

/-- `KubeStructurer._is_protected_structure`. -/
def isProtectedStructure (line : String) : Bool :=
  let content := pyStrip line
  strStartsWith content "%YAML" || strStartsWith content "%TAG" ||
    strStartsWith content "---" || strStartsWith content "..." ||
    isAnchorOrAlias line ||
    strStartsWith content "|" || strStartsWith content ">"

/-- One iteration of `_apply_magnetic_snap`'s loop.  `lastDash` models
`last_dash_indent` (`-1` = no dash anchor).  Returns the new anchor and
the emitted line. -/
def snapLine (lastDash : Int) (line : String) : Int × String :=
  let stripped := pyLstrip line
  if stripped = "" || strStartsWith stripped "#" then (lastDash, line)
  else if isProtectedStructure line then (-1, line)
  else
    let currentIndent := lineIndent line
    let snapped0 := pyRound2 currentIndent
    if strStartsWith stripped "- " then
      let snapped1 :=
        if lastDash ≠ -1 && decide ((currentIndent : Int) > lastDash) &&
            decide ((snapped0 : Int) ≤ lastDash) then
          (lastDash + 2).toNat
        else snapped0
      ((snapped1 : Int), ⟨List.replicate snapped1 ' ' ++ stripped.data⟩)
    else
      let newLast : Int := if (snapped0 : Int) < lastDash then -1 else lastDash
      (newLast, ⟨List.replicate snapped0 ' ' ++ stripped.data⟩)

/-- The line loop of `_apply_magnetic_snap`. -/
def snapLines (lastDash : Int) (lines : List String) : List String :=
  match lines with
  | [] => []
  | l :: rest =>
    let p := snapLine lastDash l
    p.2 :: snapLines p.1 rest

/-- `KubeStructurer._apply_magnetic_snap`. -/
def applyMagneticSnap (s : String) : String :=
  String.intercalate "\n" (snapLines (-1) (pySplitlines s))

/-!
### Policy shield (`src/kubecuro/rules/shield.py`, `ShieldEngine`)
-/

def clusterScoped : List String :=
  ["Namespace", "Node", "ClusterRole", "ClusterRoleBinding",
   "StorageClass", "PersistentVolume", "CustomResourceDefinition"]

def workloadKinds : List String :=
  ["Deployment", "StatefulSet", "Job", "DaemonSet", "ReplicaSet"]

/-- Python `"needle" in l` for a list: `==`-membership, true only for a
string element equal to `needle`. -/
def listHasStr (l : List Node) (needle : String) : Bool :=
  l.any (fun n => match n with | .str s => s = needle | _ => false)

/-- `ShieldEngine._rule_ensure_namespace`.  `Except.error` models an
uncaught exception (`metadata` bound to a non-dict makes
`metadata["namespace"] = "default"` raise `TypeError`). -/
def ruleEnsureNamespace (doc : Node) : Except String (Node × String) :=
  match doc with
  | .map es =>
    let kind := (mapGet es "kind").getD (Node.str "")
    let isCluster := match kind with | .str s => clusterScoped.contains s | _ => false
    if !pyTruthy kind || isCluster then .ok (doc, "")
    else
      let es1 := if containsKey es "metadata" then es else mapSet es "metadata" (.map [])
      match mapGet es1 "metadata" with
      | some (.map m) =>
          if containsKey m "namespace" then .ok (.map es1, "")
          else
            .ok (.map (mapSet es1 "metadata"
                   (.map (mapSet m "namespace" (.str "default")))),
              "Action: Added 'namespace: default' to satisfy organizational policy.")
      | some (.str s) =>
          if strHasSub s "namespace" then .ok (.map es1, "") else .error "TypeError"
      | some (.arr l) =>
          if listHasStr l "namespace" then .ok (.map es1, "") else .error "TypeError"
      | some _ => .error "TypeError"
      | none => .error "KeyError"
  | _ => .error "AttributeError"

/-- Processing of one element of the `containers` list by
`_rule_inject_resource_limits`.  A non-dict container always raises
(`TypeError` on item assignment or string indexing), which the rule's
`except (KeyError, AttributeError)` does NOT catch. -/
def injectContainer (cpu mem : String) (c : Node) : Except String (Node × Bool) :=
  match c with
  | .map m =>
    match mapGet m "resources" with
    | none =>
        .ok (.map (mapSet m "resources"
              (.map [("limits", .map [("cpu", .str cpu), ("memory", .str mem)])])),
          true)
    | some (.map r) =>
        if containsKey r "limits" then .ok (c, false)
        else
          .ok (.map (mapSet m "resources"
                (.map (mapSet r "limits"
                  (.map [("cpu", .str cpu), ("memory", .str mem)])))),
            true)
    | some (.str s) =>
        if strHasSub s "limits" then .ok (c, false) else .error "TypeError"
    | some (.arr l) =>
        if listHasStr l "limits" then .ok (c, false) else .error "TypeError"
    | some _ => .error "TypeError"
  | _ => .error "TypeError"

/-- The `for container in containers` loop. -/
def injectContainers (cpu mem : String) :
    List Node → Except String (List Node × Bool)
  | [] => .ok ([], false)
  | c :: rest =>
    match injectContainer cpu mem c with
    | .error e => .error e
    | .ok (c', m1) =>
      match injectContainers cpu mem rest with
      | .error e => .error e
      | .ok (rest', m2) => .ok (c' :: rest', m1 || m2)

/-- `ShieldEngine._rule_inject_resource_limits`.  The `.get(..., {})`
chain swallows a missing or non-dict step (`AttributeError`/`KeyError`
are caught and treated as not applicable); iterating a non-empty scalar
or dict `containers`, or a non-dict container element, raises `TypeError`
which escapes the rule (`Except.error`). -/
def ruleInjectResourceLimits (cpu mem : String) (doc : Node) :
    Except String (Node × String) :=
  match doc with
  | .map es =>
    match mapGet es "kind" with
    | some (.str s) =>
      if workloadKinds.contains s then
        match mapGet es "spec" with
        | none => .ok (doc, "")
        | some (.map t1) =>
          match mapGet t1 "template" with
          | none => .ok (doc, "")
          | some (.map t2) =>
            match mapGet t2 "spec" with
            | none => .ok (doc, "")
            | some (.map t3) =>
              match mapGet t3 "containers" with
              | none => .ok (doc, "")
              | some (.arr cs) =>
                  (match injectContainers cpu mem cs with
                   | .error e => .error e
                   | .ok (cs', modified) =>
                     let doc' := Node.map (mapSet es "spec"
                       (.map (mapSet t1 "template"
                         (.map (mapSet t2 "spec"
                           (.map (mapSet t3 "containers" (.arr cs'))))))))
                     if modified then
                       .ok (doc', "Warning: Injected default resource limits (" ++
                         mem ++ ").")
                     else .ok (doc', ""))
              | some (.str cstr) =>
                  if cstr = "" then .ok (doc, "") else .error "TypeError"
              | some (.map cm) =>
                  if cm.isEmpty then .ok (doc, "") else .error "TypeError"
              | some _ => .error "TypeError"
            | some _ => .ok (doc, "")
          | some _ => .ok (doc, "")
        | some _ => .ok (doc, "")
      else .ok (doc, "")
    | _ => .ok (doc, "")
  | _ => .error "AttributeError"

/-- `ShieldEngine.protect`: the rule gauntlet over one document (non-dict
input is returned untouched); rule log messages are collected when
truthy. -/
def shieldProtect (cpu mem : String) (doc : Node) :
    Except String (Node × List String) :=
  match doc with
  | .map _ =>
    match ruleEnsureNamespace doc with
    | .error e => .error e
    | .ok (d1, m1) =>
      match ruleInjectResourceLimits cpu mem d1 with
      | .error e => .error e
      | .ok (d2, m2) =>
          .ok (d2, (if m1 ≠ "" then [m1] else []) ++ (if m2 ≠ "" then [m2] else []))
  | _ => .ok (doc, [])

/-- A container element the rule handles without raising: a dict whose
`resources` entry, when present, is itself a dict. -/
def containerOk (c : Node) : Bool :=
  match c with
  | .map m =>
    (match mapGet m "resources" with
     | none => true
     | some (.map _) => true
     | _ => false)
  | _ => false

/-- Does the container already carry `resources.limits`? -/
def hasLimitsPath (c : Node) : Bool :=
  match c with
  | .map m =>
    (match mapGet m "resources" with
     | some (.map r) => containsKey r "limits"
     | _ => false)
  | _ => false

/-- The per-container effect the rule is expected to have on a
well-formed container: inject the default limit pair exactly when
`resources.limits` is missing, otherwise change nothing. -/
def injectOne (cpu mem : String) (c : Node) : Node :=
  match c with
  | .map m =>
    (match mapGet m "resources" with
     | none =>
         .map (mapSet m "resources"
           (.map [("limits", .map [("cpu", .str cpu), ("memory", .str mem)])]))
     | some (.map r) =>
         if containsKey r "limits" then c
         else
           .map (mapSet m "resources"
             (.map (mapSet r "limits"
               (.map [("cpu", .str cpu), ("memory", .str mem)]))))
     | some _ => c)
  | _ => c

/-- A Deployment whose `containers` value is a scalar string — the
malformed-path shape on which the rule raises `TypeError`. -/
def docBadContainers : Node :=
  Node.map [("kind", Node.str "Deployment"),
            ("metadata", Node.map [("namespace", Node.str "default")]),
            ("spec", Node.map [("template", Node.map
              [("spec", Node.map [("containers", Node.str "x")])])])]

/-!
### Orchestrator (`src/kubecuro/core/engine.py`,
`AuditEngineV3.audit_and_heal_file`)
-/

/-- The per-file report record (the fields of the engine's result dict
that the checked properties concern).  `writeAttempted` records whether
the write phase ran (`should_write`); `written` the final `"written"`
flag. -/
structure Report where
  success : Bool
  partHeal : Bool
  status : String
  kind : Option String
  apiVersion : Option String
  writeAttempted : Bool
  written : Bool
  healedContent : Option String
  logicLogs : List String
  validationError : String

/-- Whether the embedded validator accepts a document outright. -/
def validatorAccepts (cat : Catalog) (strict : Bool) (d : Node) : Bool :=
  match validateReconstruction cat d strict with
  | .ok (true, _) => true
  | _ => false

/-- The shield-and-validate loop of `audit_and_heal_file` (Pass 2), with
accumulators: shielded docs so far (reversed), `validation_passed`, the
last failing validation error, collected logic logs. -/
def processDocsGo (cat : Catalog) (cpu mem : String) (strict : Bool) :
    List Node → List Node → Bool → String → List String →
    Except String (List Node × Bool × String × List String)
  | [], accDocs, vp, verr, logs => .ok (accDocs.reverse, vp, verr, logs)
  | d :: rest, accDocs, vp, verr, logs =>
    match shieldProtect cpu mem d with
    | .error e => .error e
    | .ok (pd, plogs) =>
      match validateReconstruction cat pd strict with
      | .error e => .error e
      | .ok (valid, err) =>
          processDocsGo cat cpu mem strict rest (pd :: accDocs) (vp && valid)
            (if valid then verr else err) (logs ++ plogs)

/-- Pass 2 of `audit_and_heal_file` over the reconstructed documents. -/
def processDocs (cat : Catalog) (cpu mem : String) (strict : Bool)
    (docs : List Node) : Except String (List Node × Bool × String × List String) :=
  processDocsGo cat cpu mem strict docs [] true "" []

/-- Python truthiness of the detected kind (`context.kind and ...`). -/
def kindTruthy : Option String → Bool
  | none => false
  | some s => s ≠ ""

/-- The decision core of `AuditEngineV3.audit_and_heal_file` after the
healing pipeline has produced the context: Pass 2 (shield + validation),
Pass 3 (export, abstracted as `exportFn` since the serializer is an
external round-trip library), the success/partial/modified derivation,
the status, the write decision, and the effect of a failing atomic write
(`writeFails`).  `Except.error` is the engine exception caught at the
outer boundary (`HEAL_FAILED`). -/
def auditCore (cat : Catalog) (cpu mem : String)
    (exportFn : List Node → String) (rawText : String)
    (kind apiVersion : Option String) (shardCount : Nat)
    (healedDocs : List Node) (dryRun forceWrite strict writeFails : Bool) :
    Except String Report :=
  match processDocs cat cpu mem strict healedDocs with
  | .error e => .error e
  | .ok (pdocs, vpass, verr, logs) =>
    let finalYaml := exportFn pdocs
    let success0 := kindTruthy kind && !pdocs.isEmpty && vpass
    let partHeal := !success0 && decide (0 < shardCount)
    let isModified := pyStrip rawText ≠ pyStrip finalYaml
    let displayStatus :=
      if !isModified then "UNCHANGED"
      else if dryRun then "PREVIEW"
      else if success0 then "HEALED"
      else if partHeal then "PARTIAL"
      else "FAILED"
    let shouldWrite := !dryRun && isModified && (success0 || (partHeal && forceWrite))
    let reportSuccess := success0 || !isModified
    .ok { success := if shouldWrite && writeFails then false else reportSuccess,
          partHeal := partHeal, status := displayStatus,
          kind := kind, apiVersion := apiVersion,
          writeAttempted := shouldWrite,
          written := shouldWrite && !writeFails,
          healedContent := if isModified then some finalYaml else none,
          logicLogs := logs, validationError := verr }

/-!
### Agreement up to array tails

`TailAgree d d'` relates two documents that coincide everywhere except
that, in every list, the elements after index 0 may differ arbitrarily
(in length and content).  The validator never inspects those positions.
-/

mutual

/-- Node agreement up to array tails. -/
inductive TailAgree : Node → Node → Prop where
  | str (s : String) : TailAgree (.str s) (.str s)
  | intv (n : Int) : TailAgree (.intv n) (.intv n)
  | boolv (b : Bool) : TailAgree (.boolv b) (.boolv b)
  | nullv : TailAgree .nullv .nullv
  | map (es es' : List (String × Node)) (h : TailAgreeEntries es es') :
      TailAgree (.map es) (.map es')
  | arrNil : TailAgree (.arr []) (.arr [])
  | arrCons (h h' : Node) (t t' : List Node) (hh : TailAgree h h') :
      TailAgree (.arr (h :: t)) (.arr (h' :: t'))

/-- Pointwise agreement of dict entry lists (same keys in the same
order, values agreeing up to array tails). -/
inductive TailAgreeEntries :
    List (String × Node) → List (String × Node) → Prop where
  | nil : TailAgreeEntries [] []
  | cons (k : String) (v v' : Node) (es es' : List (String × Node))
      (hv : TailAgree v v') (hes : TailAgreeEntries es es') :
      TailAgreeEntries ((k, v) :: es) ((k, v') :: es')

end

/-!
### Strict-mode monotonicity of the validator
-/

mutual

/-- If the strict run of `deepValidate` accepts, the non-strict run takes
exactly the same path and returns the same result. -/
theorem deepValidate_mono (es : List (String × Node)) (schema : SchemaNode)
    (path : String) (h : (deepValidate es schema path true).1 = true) :
    deepValidate es schema path false = deepValidate es schema path true := by
  rw [deepValidate.eq_def] at h ⊢
  rw [deepValidate.eq_def]
  cases hf : findMissing schema.required es with
  | some r => simp only [hf] at h; simp at h
  | none =>
      simp only [hf] at h ⊢
      exact checkEntries_mono es schema path h
termination_by (sizeOf es, 1)

/-- Companion of `deepValidate_mono` for the entry loop. -/
theorem checkEntries_mono (es : List (String × Node)) (schema : SchemaNode)
    (path : String) (h : (checkEntries es schema path true).1 = true) :
    checkEntries es schema path false = checkEntries es schema path true := by
  match es with
  | [] => rw [checkEntries.eq_def, checkEntries.eq_def]
  | (k, v) :: rest =>
    rw [checkEntries.eq_def] at h ⊢
    rw [checkEntries.eq_def]
    cases hl : lookupTruthyField schema k with
    | none => simp only [hl] at h; simp at h
    | some fi =>
      simp only [hl] at h ⊢
      by_cases ho : fi.etype = some "object"
      · simp only [ho, if_pos] at h ⊢
        cases v with
        | map sub =>
          simp only at h ⊢
          cases hdv : deepValidate sub fi (path ++ k ++ ".") true with
          | mk b e =>
            cases b with
            | false => simp only [hdv] at h; simp at h
            | true =>
              rw [deepValidate_mono sub fi (path ++ k ++ ".") (by rw [hdv])]
              simp only [hdv] at h ⊢
              exact checkEntries_mono rest schema path h
        | str s => simp at h
        | intv n => simp at h
        | boolv b => simp at h
        | nullv => simp at h
        | arr l => simp at h
      · simp only [ho, if_neg, if_false] at h ⊢
        by_cases ha : fi.etype = some "array"
        · simp only [ha, if_pos] at h ⊢
          cases v with
          | map sub => simp at h
          | str s => simp at h
          | intv n => simp at h
          | boolv b => simp at h
          | nullv => simp at h
          | arr l =>
            cases hi : fi.items with
            | none =>
                simp only [hi] at h ⊢
                exact checkEntries_mono rest schema path h
            | some isch =>
              cases l with
              | nil =>
                  simp only [hi] at h ⊢
                  exact checkEntries_mono rest schema path h
              | cons hd tail =>
                cases hd with
                | str s =>
                    simp only [hi] at h ⊢
                    exact checkEntries_mono rest schema path h
                | intv n =>
                    simp only [hi] at h ⊢
                    exact checkEntries_mono rest schema path h
                | boolv b =>
                    simp only [hi] at h ⊢
                    exact checkEntries_mono rest schema path h
                | nullv =>
                    simp only [hi] at h ⊢
                    exact checkEntries_mono rest schema path h
                | arr l2 =>
                    simp only [hi] at h ⊢
                    exact checkEntries_mono rest schema path h
                | map sub0 =>
                    simp only [hi] at h ⊢
                    by_cases ht : isch.truthy = true
                    · simp only [ht, if_pos] at h ⊢
                      cases hdv : deepValidate sub0 isch (path ++ k ++ "[0].") true with
                      | mk b e =>
                        cases b with
                        | false => simp only [hdv] at h; simp at h
                        | true =>
                          rw [deepValidate_mono sub0 isch (path ++ k ++ "[0].") (by rw [hdv])]
                          simp only [hdv] at h ⊢
                          exact checkEntries_mono rest schema path h
                    · simp only [ht, if_neg, if_false] at h ⊢
                      exact checkEntries_mono rest schema path h
        · simp only [ha, if_neg, if_false] at h ⊢
          exact checkEntries_mono rest schema path h
termination_by (sizeOf es, 0)

end

/-- A strict run over a list with a visited unknown field never accepts:
either the unknown field (or an earlier problem) stops the walk. -/
theorem checkEntries_unknown_rejects
    (es : List (String × Node)) (schema : SchemaNode)
    (hu : HasUnknownVisited es schema) :
    ∀ path, (checkEntries es schema path true).1 = false := by
  induction hu with
  | head_unknown k v rest schema h =>
      intro path
      rw [checkEntries.eq_def]
      simp [h]
  | head_object k sub rest schema fi hl ho hsub ih =>
      intro path
      rw [checkEntries.eq_def]
      simp only [hl, ho, if_pos]
      have hd : (deepValidate sub fi (path ++ k ++ ".") true).1 = false := by
        rw [deepValidate.eq_def]
        cases hf : findMissing fi.required sub with
        | some r => simp
        | none => exact ih (path ++ k ++ ".")
      cases hdv : deepValidate sub fi (path ++ k ++ ".") true with
      | mk b e =>
        rw [hdv] at hd
        simp at hd
        subst hd
        simp
  | head_array k sub0 tail rest schema fi isch hl ha hi ht hsub ih =>
      intro path
      have ho : ¬ fi.etype = some "object" := by rw [ha]; simp
      rw [checkEntries.eq_def]
      simp only [hl, ha, ho, if_neg, if_false, if_pos, hi, ht]
      have hd : (deepValidate sub0 isch (path ++ k ++ "[0].") true).1 = false := by
        rw [deepValidate.eq_def]
        cases hf : findMissing isch.required sub0 with
        | some r => simp
        | none => exact ih (path ++ k ++ "[0].")
      cases hdv : deepValidate sub0 isch (path ++ k ++ "[0].") true with
      | mk b e =>
        rw [hdv] at hd
        simp at hd
        subst hd
        simp
  | tail e rest schema h ih =>
      intro path
      obtain ⟨k, v⟩ := e
      rw [checkEntries.eq_def]
      cases hl : lookupTruthyField schema k with
      | none => simp [hl]
      | some fi =>
        simp only [hl]
        by_cases ho : fi.etype = some "object"
        · simp only [ho, if_pos]
          cases v with
          | map sub =>
            cases hdv : deepValidate sub fi (path ++ k ++ ".") true with
            | mk b e2 =>
              cases b with
              | false => simp [hdv]
              | true => simp only [hdv]; simpa using ih path
          | str s => simp
          | intv n => simp
          | boolv b => simp
          | nullv => simp
          | arr l => simp
        · simp only [ho, if_neg, if_false]
          by_cases ha : fi.etype = some "array"
          · simp only [ha, if_pos]
            cases v with
            | map sub => simp
            | str s => simp
            | intv n => simp
            | boolv b => simp
            | nullv => simp
            | arr l =>
              cases hi : fi.items with
              | none => simpa using ih path
              | some isch =>
                cases l with
                | nil => simpa using ih path
                | cons hd0 tail0 =>
                  cases hd0 with
                  | str s => simpa using ih path
                  | intv n => simpa using ih path
                  | boolv b => simpa using ih path
                  | nullv => simpa using ih path
                  | arr l2 => simpa using ih path
                  | map sub0 =>
                    by_cases ht : isch.truthy = true
                    · simp only [ht, if_pos]
                      cases hdv : deepValidate sub0 isch (path ++ k ++ "[0].") true with
                      | mk b e2 =>
                        cases b with
                        | false => simp [hdv]
                        | true => simp only [hdv]; simpa using ih path
                    · simp only [ht, if_neg, if_false]
                      simpa using ih path
          · simp only [ha, if_neg, if_false]
            simpa using ih path


/-!
### Claim C4 — strict failures are a superset of non-strict failures
-/

/-- C4: for every catalog and every document, if
`KubeValidator.validate_reconstruction` rejects the document with strict
mode off, it also rejects it with strict mode on (no exception occurs in
either run): the strict-mode failure set contains the non-strict one. -/
theorem c4_strict_failures_superset (cat : Catalog) (doc : Node) (m : String)
    (h : validateReconstruction cat doc false = .ok (false, m)) :
    ∃ m2, validateReconstruction cat doc true = .ok (false, m2) := by
  cases doc with
  | str s => exact ⟨_, rfl⟩
  | intv n => exact ⟨_, rfl⟩
  | boolv b => exact ⟨_, rfl⟩
  | nullv => exact ⟨_, rfl⟩
  | arr l => exact ⟨_, rfl⟩
  | map es =>
    unfold validateReconstruction at h ⊢
    cases hf : findMissing ["apiVersion", "kind", "metadata"] es with
    | some f => simp only [hf]; exact ⟨_, rfl⟩
    | none =>
      simp only [hf] at h ⊢
      cases hk : mapGet es "kind" with
      | none =>
        simp only [hk] at h
        exact absurd h (by simp)
      | some kn =>
        cases kn with
        | map es2 => simp only [hk] at h; exact absurd h (by simp)
        | arr l2 => simp only [hk] at h; exact absurd h (by simp)
        | intv n => simp only [hk] at h; exact absurd h (by simp)
        | boolv b => simp only [hk] at h; exact absurd h (by simp)
        | nullv => simp only [hk] at h; exact absurd h (by simp)
        | str ks =>
          simp only [hk] at h ⊢
          cases hc : catGet cat ks with
          | none => simp only [hc] at h; exact absurd h (by simp)
          | some schema =>
            simp only [hc] at h ⊢
            by_cases ht : schema.truthy = true
            · simp only [ht, if_pos] at h ⊢
              cases hd : deepValidate es schema "" true with
              | mk b e =>
                cases b with
                | false => exact ⟨e, rfl⟩
                | true =>
                  exfalso
                  rw [deepValidate_mono es schema "" (by rw [hd]), hd] at h
                  simp at h
            · simp only [ht, if_neg, if_false] at h
              exact absurd h (by simp)

/-- Witness for C4 at a concrete rejected document: the empty dict is
rejected non-strict (missing `apiVersion`), hence also rejected strict. -/
theorem c4_strict_failures_superset_witness :
    validateReconstruction [] (Node.map []) false =
      .ok (false, "Validation Failed: Missing required top-level field 'apiVersion'.") ∧
    ∃ m2, validateReconstruction [] (Node.map []) true = .ok (false, m2) :=
  ⟨by simp [validateReconstruction, findMissing, containsKey],
   c4_strict_failures_superset [] (Node.map [])
     "Validation Failed: Missing required top-level field 'apiVersion'."
     (by simp [validateReconstruction, findMissing, containsKey])⟩

/-!
### Claim C5 — unknown fields: silent in lenient mode, fatal in strict mode
-/

/-- C5 (amended): for a document whose Kind resolves to a truthy catalog
node, an unknown field at any position the validator visits (own entries,
object-typed subtrees, index 0 of array-typed fields) makes the strict
run reject; and scenario C concretely: `docTypo` (containing
`typo: true`) passes with `strict = false` and fails with
`strict = true`, the diagnostic naming `typo`.  (Unknown fields in array
elements past index 0 are not visited — see the counterexample.) -/
theorem c5_unknown_field_policy :
    (∀ (cat : Catalog) (es : List (String × Node)) (ks : String)
       (schema : SchemaNode),
       mapGet es "kind" = some (Node.str ks) →
       catGet cat ks = some schema →
       schema.truthy = true →
       HasUnknownVisited es schema →
       ∃ m, validateReconstruction cat (Node.map es) true = .ok (false, m))
    ∧ validateReconstruction catalogC docTypo false =
        .ok (true, "Manifest passes structural integrity check.")
    ∧ validateReconstruction catalogC docTypo true =
        .ok (false, "Strict Mode Violation: Unknown field 'typo'. Possible typo?") := by
  refine ⟨?_, ?_, ?_⟩
  · intro cat es ks schema hk hc ht hu
    unfold validateReconstruction
    cases hf : findMissing ["apiVersion", "kind", "metadata"] es with
    | some f => simp only [hf]; exact ⟨_, rfl⟩
    | none =>
      simp only [hf, hk, hc, ht, if_pos]
      have hd : (deepValidate es schema "" true).1 = false := by
        rw [deepValidate.eq_def]
        cases hf2 : findMissing schema.required es with
        | some r => simp
        | none => exact checkEntries_unknown_rejects es schema hu ""
      cases hdv : deepValidate es schema "" true with
      | mk b e =>
        rw [hdv] at hd
        simp at hd
        subst hd
        exact ⟨e, rfl⟩
  · simp [validateReconstruction, deepValidate, checkEntries, lookupTruthyField,
          catGet, findMissing, containsKey, mapGet, docTypo, docTypoEntries,
          catalogC, podSchemaC, leafSchema, SchemaNode.truthy,
          SchemaNode.required, SchemaNode.fields, SchemaNode.etype,
          SchemaNode.items]
  · simp [validateReconstruction, deepValidate, checkEntries, lookupTruthyField,
          catGet, findMissing, containsKey, mapGet, docTypo, docTypoEntries,
          catalogC, podSchemaC, leafSchema, SchemaNode.truthy,
          SchemaNode.required, SchemaNode.fields, SchemaNode.etype,
          SchemaNode.items]

/-- Counterexample to C5 as stated: `docTypoDeep` has a known Kind and
contains the unknown field `typo` (at nesting level `spec[1].typo`, as
the second conjunct exhibits; the third conjunct shows `typo` is indeed
unknown to the item schema), yet strict validation accepts it — the
strict hard-fail does not hold at every nesting level. -/
theorem c5_unknown_field_policy_counterexample :
    validateReconstruction catalogArr docTypoDeep true =
      .ok (true, "Manifest passes structural integrity check.") ∧
    mapGet docTypoDeepEntries "spec" =
      some (Node.arr [Node.map [("name", Node.str "a")],
                      Node.map [("typo", Node.boolv true)]]) ∧
    lookupTruthyField itemSchemaC "typo" = none := by
  refine ⟨?_, rfl, rfl⟩
  simp [validateReconstruction, deepValidate, checkEntries, lookupTruthyField,
        catGet, findMissing, containsKey, mapGet, docTypoDeep,
        docTypoDeepEntries, catalogArr, podSchemaArr, itemSchemaC, leafSchema,
        SchemaNode.truthy, SchemaNode.required, SchemaNode.fields,
        SchemaNode.etype, SchemaNode.items]

/-- Witness for C5's universally quantified part, at scenario C's data. -/
theorem c5_unknown_field_policy_witness :
    ∃ m, validateReconstruction catalogC (Node.map docTypoEntries) true =
      .ok (false, m) :=
  c5_unknown_field_policy.1 catalogC docTypoEntries "Pod" podSchemaC
    rfl rfl rfl
    (HasUnknownVisited.tail _ _ _ (HasUnknownVisited.tail _ _ _
      (HasUnknownVisited.tail _ _ _
        (HasUnknownVisited.head_unknown "typo" (Node.boolv true) [] podSchemaC
          rfl))))

/-!
### Claim C10 — deep validation inspects only index 0 of arrays
-/

/-- Key sets of `TailAgree`-related entry lists coincide. -/
theorem tailAgreeEntries_containsKey :
    ∀ (es es' : List (String × Node)), TailAgreeEntries es es' →
      ∀ k, containsKey es k = containsKey es' k := by
  intro es
  induction es with
  | nil => intro es' h k; cases h; rfl
  | cons e rest ih =>
    intro es' h k
    cases h with
    | cons k2 v v' rest2 rest2' hv hrest =>
      simp only [containsKey]
      rw [ih rest2' hrest k]

/-- `findMissing` cannot distinguish `TailAgree`-related entry lists. -/
theorem tailAgreeEntries_findMissing
    {es es' : List (String × Node)} (h : TailAgreeEntries es es')
    (req : List String) : findMissing req es = findMissing req es' := by
  induction req with
  | nil => rfl
  | cons r rs ih =>
    simp only [findMissing, tailAgreeEntries_containsKey es es' h, ih]

/-- Lookups in `TailAgree`-related entry lists yield related results. -/
theorem tailAgreeEntries_mapGet :
    ∀ (es es' : List (String × Node)), TailAgreeEntries es es' →
      ∀ k, (mapGet es k = none ∧ mapGet es' k = none) ∨
        ∃ v v', mapGet es k = some v ∧ mapGet es' k = some v' ∧ TailAgree v v' := by
  intro es
  induction es with
  | nil => intro es' h k; cases h; exact Or.inl ⟨rfl, rfl⟩
  | cons e rest ih =>
    intro es' h k
    cases h with
    | cons k2 v v' rest2 rest2' hv hrest =>
      by_cases hk : k2 = k
      · subst hk
        exact Or.inr ⟨v, v', by simp [mapGet], by simp [mapGet], hv⟩
      · simpa [mapGet, hk] using ih rest2' hrest k

/-- The entry loop of the validator cannot distinguish `TailAgree`-related
entry lists (strong induction on the size of the left list). -/
theorem tailAgree_checkEntries_aux :
    ∀ (n : Nat) (es es' : List (String × Node)), sizeOf es ≤ n →
      TailAgreeEntries es es' → ∀ (schema : SchemaNode) (path : String)
      (strict : Bool),
      checkEntries es schema path strict = checkEntries es' schema path strict := by
  intro n
  induction n with
  | zero =>
    intro es es' hsz
    exfalso
    cases es <;> simp_arith at hsz
  | succ n ih =>
    intro es es' hsz hrel schema path strict
    cases hrel with
    | nil => rfl
    | cons k v v' rest rest' hv hrest =>
      have hszrest : sizeOf rest ≤ n := by
        simp_arith at hsz
        omega
      have hdeepOf : ∀ (sub sub' : List (String × Node)), sizeOf sub ≤ n →
          TailAgreeEntries sub sub' → ∀ (s2 : SchemaNode) (p2 : String),
          deepValidate sub s2 p2 strict = deepValidate sub' s2 p2 strict := by
        intro sub sub' hs hrel2 s2 p2
        rw [deepValidate.eq_def, deepValidate.eq_def,
            tailAgreeEntries_findMissing hrel2 s2.required]
        cases hf : findMissing s2.required sub' with
        | some r => rfl
        | none => simpa using ih sub sub' hs hrel2 s2 p2 strict
      conv_lhs => rw [checkEntries.eq_def]
      conv_rhs => rw [checkEntries.eq_def]
      simp only
      cases hl : lookupTruthyField schema k with
      | none =>
        cases strict with
        | true => rfl
        | false => simpa using ih rest rest' hszrest hrest schema path false
      | some fi =>
        by_cases ho : fi.etype = some "object"
        · simp only [ho, if_pos]
          cases hv with
          | str s => rfl
          | intv n2 => rfl
          | boolv b => rfl
          | nullv => rfl
          | arrNil => rfl
          | arrCons hd hd' t t' hh => rfl
          | map sub sub' hsub =>
            have hsub_sz : sizeOf sub ≤ n := by
              simp_arith at hsz
              omega
            simp only []
            rw [hdeepOf sub sub' hsub_sz hsub fi (path ++ k ++ ".")]
            cases hdv : deepValidate sub' fi (path ++ k ++ ".") strict with
            | mk b e =>
              cases b with
              | true => simpa using ih rest rest' hszrest hrest schema path strict
              | false => rfl
        · simp only [ho, if_neg, if_false]
          by_cases ha : fi.etype = some "array"
          · simp only [ha, if_pos]
            cases hv with
            | str s => rfl
            | intv n2 => rfl
            | boolv b => rfl
            | nullv => rfl
            | map sub sub' hsub => rfl
            | arrNil =>
              cases hi : fi.items with
              | none => simpa [hi] using ih rest rest' hszrest hrest schema path strict
              | some isch => simpa [hi] using ih rest rest' hszrest hrest schema path strict
            | arrCons hd hd' t t' hh =>
              cases hi : fi.items with
              | none =>
                cases hh <;> simpa [hi] using ih rest rest' hszrest hrest schema path strict
              | some isch =>
                cases hh with
                | str s => simpa [hi] using ih rest rest' hszrest hrest schema path strict
                | intv n2 => simpa [hi] using ih rest rest' hszrest hrest schema path strict
                | boolv b => simpa [hi] using ih rest rest' hszrest hrest schema path strict
                | nullv => simpa [hi] using ih rest rest' hszrest hrest schema path strict
                | arrNil => simpa [hi] using ih rest rest' hszrest hrest schema path strict
                | arrCons hd2 hd2' t2 t2' hh2 =>
                    simpa [hi] using ih rest rest' hszrest hrest schema path strict
                | map sub0 sub0' hsub0 =>
                  have hsub0_sz : sizeOf sub0 ≤ n := by
                    simp_arith at hsz
                    omega
                  simp only [hi]
                  by_cases ht : isch.truthy = true
                  · simp only [ht, if_pos]
                    rw [hdeepOf sub0 sub0' hsub0_sz hsub0 isch (path ++ k ++ "[0].")]
                    cases hdv : deepValidate sub0' isch (path ++ k ++ "[0].") strict with
                    | mk b e =>
                      cases b with
                      | true => simpa using ih rest rest' hszrest hrest schema path strict
                      | false => rfl
                  · simp only [ht, if_neg, if_false]
                    simpa using ih rest rest' hszrest hrest schema path strict
          · simp only [ha, if_neg, if_false]
            simpa using ih rest rest' hszrest hrest schema path strict

/-- `_deep_validate` cannot distinguish `TailAgree`-related entry lists. -/
theorem tailAgree_deepValidate
    {es es' : List (String × Node)} (h : TailAgreeEntries es es')
    (schema : SchemaNode) (path : String) (strict : Bool) :
    deepValidate es schema path strict = deepValidate es' schema path strict := by
  rw [deepValidate.eq_def, deepValidate.eq_def,
      tailAgreeEntries_findMissing h schema.required]
  cases hf : findMissing schema.required es' with
  | some r => rfl
  | none =>
      simpa using tailAgree_checkEntries_aux (sizeOf es) es es' (le_refl _) h
        schema path strict

/-- `validate_reconstruction` (result and diagnostic, including the
exception behaviour) cannot distinguish `TailAgree`-related documents. -/
theorem tailAgree_validateReconstruction
    (cat : Catalog) (d d' : Node) (strict : Bool) (h : TailAgree d d') :
    validateReconstruction cat d strict = validateReconstruction cat d' strict := by
  cases h with
  | str s => rfl
  | intv n => rfl
  | boolv b => rfl
  | nullv => rfl
  | arrNil => rfl
  | arrCons hd hd' t t' hh => rfl
  | map es es' hes =>
    unfold validateReconstruction
    simp only []
    rw [tailAgreeEntries_findMissing hes ["apiVersion", "kind", "metadata"]]
    cases hf : findMissing ["apiVersion", "kind", "metadata"] es' with
    | some f => rfl
    | none =>
      rcases tailAgreeEntries_mapGet es es' hes "kind" with ⟨h1, h2⟩ | ⟨v, v', h1, h2, hvv⟩
      · simp only [h1, h2]
      · simp only [h1, h2]
        cases hvv with
        | map s1 s2 hsub => rfl
        | arrNil => rfl
        | arrCons a b c d hh => rfl
        | intv n => rfl
        | boolv b => rfl
        | nullv => rfl
        | str s =>
          simp only
          cases hc : catGet cat s with
          | none => rfl
          | some schema =>
            by_cases ht : schema.truthy = true
            · simp only [ht, if_pos]
              rw [tailAgree_deepValidate hes schema "" strict]
            · simp [ht]

/-- C10: deep validation of arrays inspects only the element at index 0 —
if a document is accepted, then any document differing from it only in
array elements past index 0 (`TailAgree`) is accepted with the same
diagnostic, whatever those later elements contain. -/
theorem c10_array_checks_first_element_only
    (cat : Catalog) (d d' : Node) (strict : Bool) (m : String)
    (hrel : TailAgree d d')
    (h : validateReconstruction cat d strict = .ok (true, m)) :
    validateReconstruction cat d' strict = .ok (true, m) := by
  rw [← tailAgree_validateReconstruction cat d d' strict hrel]
  exact h

/-- Witness for C10: `docOkArr` (conforming, one array element) and
`docTypoDeep` (same but with a violating second element) are
`TailAgree`-related, and the acceptance of the former transfers to the
latter. -/
theorem c10_array_checks_first_element_only_witness :
    TailAgree docOkArr docTypoDeep ∧
    validateReconstruction catalogArr docTypoDeep true =
      .ok (true, "Manifest passes structural integrity check.") := by
  have hrel : TailAgree docOkArr docTypoDeep := by
    unfold docOkArr docTypoDeep docTypoDeepEntries
    repeat constructor
  refine ⟨hrel, c10_array_checks_first_element_only catalogArr docOkArr
    docTypoDeep true "Manifest passes structural integrity check." hrel ?_⟩
  simp [validateReconstruction, deepValidate, checkEntries, lookupTruthyField,
        catGet, findMissing, containsKey, mapGet, docOkArr, catalogArr,
        podSchemaArr, itemSchemaC, leafSchema, SchemaNode.truthy,
        SchemaNode.required, SchemaNode.fields, SchemaNode.etype,
        SchemaNode.items]

/-!
### Claim C6 — scanner identity
-/

/-- `scan`'s per-line effect on the tracked kind identity. -/
theorem scanLine_foundKind (st : ScannerState) (n : Nat) (line : String) :
    (scanLine st n line).1.foundKind =
      (match kindValOf line with
       | some v => some (cleanId v)
       | none => st.foundKind) := by
  unfold scanLine kindValOf
  by_cases hb : (pyStrip line = "" || strStartsWith (pyStrip line) "#") = true
  · simp [hb]
  · simp only [Bool.not_eq_true] at hb
    simp only [hb, Bool.false_eq_true, if_false]
    cases hm : matchLinePattern line with
    | none => simp
    | some t =>
      obtain ⟨ind, dash, k, v⟩ := t
      simp only
      by_cases hk : k = "kind"
      · subst hk
        by_cases hv : v = ""
        · simp [hv, optTruthy]
        · by_cases hsv : pyStrip v = ""
          · simp [hv, hsv, optTruthy]
          · simp [hv, hsv, optTruthy]
      · by_cases hk2 : k = "apiVersion"
        · subst hk2
          by_cases hv : v = ""
          · simp [hv, optTruthy]
          · by_cases hsv : pyStrip v = ""
            · simp [hv, hsv, optTruthy]
            · simp [hv, hsv, optTruthy]
        · simp [hk, hk2]

/-- `scan`'s per-line effect on the tracked apiVersion identity. -/
theorem scanLine_foundApi (st : ScannerState) (n : Nat) (line : String) :
    (scanLine st n line).1.foundApi =
      (match apiValOf line with
       | some v => some (cleanId v)
       | none => st.foundApi) := by
  unfold scanLine apiValOf
  by_cases hb : (pyStrip line = "" || strStartsWith (pyStrip line) "#") = true
  · simp [hb]
  · simp only [Bool.not_eq_true] at hb
    simp only [hb, Bool.false_eq_true, if_false]
    cases hm : matchLinePattern line with
    | none => simp
    | some t =>
      obtain ⟨ind, dash, k, v⟩ := t
      simp only
      by_cases hk : k = "apiVersion"
      · subst hk
        by_cases hv : v = ""
        · simp [hv, optTruthy]
        · by_cases hsv : pyStrip v = ""
          · simp [hv, hsv, optTruthy]
          · simp [hv, hsv, optTruthy]
      · by_cases hk2 : k = "kind"
        · subst hk2
          by_cases hv : v = ""
          · simp [hv, optTruthy]
          · by_cases hsv : pyStrip v = ""
            · simp [hv, hsv, optTruthy]
            · simp [hv, hsv, optTruthy]
        · simp [hk, hk2]

/-- The kind identity after the loop is the last contributing line's
value (or the incoming state if none). -/
theorem scanLines_foundKind :
    ∀ (lines : List String) (st : ScannerState) (n : Nat),
    (scanLines st n lines).1.foundKind =
      (match (lines.filterMap kindValOf).getLast? with
       | some v => some (cleanId v)
       | none => st.foundKind) := by
  intro lines
  induction lines with
  | nil => intro st n; rfl
  | cons l rest ih =>
    intro st n
    simp only [scanLines]
    rw [ih]
    cases hk : kindValOf l with
    | none => simp [List.filterMap_cons, hk, scanLine_foundKind]
    | some v =>
      cases hfm : rest.filterMap kindValOf with
      | nil =>
          simp [List.filterMap_cons, hk, hfm, scanLine_foundKind]
      | cons x xs =>
          simp only [List.filterMap_cons, hk, hfm, List.getLast?_cons_cons]
          cases hgl : (x :: xs).getLast? with
          | some w => rfl
          | none => simp at hgl

/-- Same for the apiVersion identity. -/
theorem scanLines_foundApi :
    ∀ (lines : List String) (st : ScannerState) (n : Nat),
    (scanLines st n lines).1.foundApi =
      (match (lines.filterMap apiValOf).getLast? with
       | some v => some (cleanId v)
       | none => st.foundApi) := by
  intro lines
  induction lines with
  | nil => intro st n; rfl
  | cons l rest ih =>
    intro st n
    simp only [scanLines]
    rw [ih]
    cases hk : apiValOf l with
    | none => simp [List.filterMap_cons, hk, scanLine_foundApi]
    | some v =>
      cases hfm : rest.filterMap apiValOf with
      | nil =>
          simp [List.filterMap_cons, hk, hfm, scanLine_foundApi]
      | cons x xs =>
          simp only [List.filterMap_cons, hk, hfm, List.getLast?_cons_cons]
          cases hgl : (x :: xs).getLast? with
          | some w => rfl
          | none => simp at hgl

/-- Counterexample to C6 as stated: in `"kind: Pod\nkind: Service"` the
first-seen `kind` line is `kind: Pod` carrying value `Pod`, but the
scanner reports `Service` — the identity is the last-seen value, not the
first-seen one. -/
theorem c6_scanner_identity_counterexample :
    kindValOf "kind: Pod" = some "Pod" ∧
    (pySplitlines "kind: Pod\nkind: Service").head? = some "kind: Pod" ∧
    getIdentity (scannerScan { foundKind := none, foundApi := none }
        "kind: Pod\nkind: Service").1 = (some "Service", none) ∧
    (some "Service" : Option String) ≠ some (cleanId "Pod") := by
  refine ⟨by decide, by decide, by decide, by decide⟩

/-- C6 (amended): after `scan`, the reported identity is the
quote-stripped value of the LAST-seen `kind` line and the LAST-seen
`apiVersion` line of the text (absent if none), and the result is
independent of whatever was scanned before with the same scanner
instance (the reset gate). -/
theorem c6_scanner_identity_amended :
    (∀ (st1 st2 : ScannerState) (text : String),
        scannerScan st1 text = scannerScan st2 text)
    ∧ (∀ (st : ScannerState) (text : String),
        getIdentity (scannerScan st text).1 = (lastKindOf text, lastApiOf text)) := by
  refine ⟨fun st1 st2 text => rfl, fun st text => ?_⟩
  unfold scannerScan getIdentity lastKindOf lastApiOf
  rw [Prod.mk.injEq]
  constructor
  · rw [scanLines_foundKind]
    cases ((pySplitlines text).filterMap kindValOf).getLast? <;> simp
  · rw [scanLines_foundApi]
    cases ((pySplitlines text).filterMap apiValOf).getLast? <;> simp

/-!
### Claim C7 — the two comment-boundary scanners agree
-/

/-- The two loops agree step by step (their bodies are the same
translation of the same algorithm). -/
theorem findAux_eq (l : List Char) : ∀ (i : Nat) (prev : Option Char)
    (inD inS esc : Bool),
    findCommentSplitAux l i prev inD inS esc =
      findSafeCommentIdxAux l i prev inD inS esc := by
  induction l with
  | nil => intro i prev inD inS esc; rfl
  | cons c rest ih =>
    intro i prev inD inS esc
    simp only [findCommentSplitAux, findSafeCommentIdxAux, ih]

/-- C7: `KubeLexer._find_comment_split` and
`KubeShadow._find_safe_comment_idx` are extensionally equal: on every
input they return the position of the first unquoted `#` preceded by
whitespace or line start, or `-1` (here `none`) if there is none. -/
theorem c7_comment_boundary_scanners_agree (text : String) :
    findCommentSplit text = findSafeCommentIdx text := by
  unfold findCommentSplit findSafeCommentIdx
  exact findAux_eq text.data 0 none false false false

/-!
### Claim C8 — colon repair and its exemptions
-/

/-- Counterexample to C8 as stated: outside block state,
`replicas:3` is NOT rewritten (the rewrite fires only before a letter,
not before every non-space), and in `image: nginx other:b` the
non-matching segment `other:b` is also left unchanged (the image
exemption is line-wide, not per-segment). -/
theorem c8_colon_repair_counterexample :
    (repairLine { inBlock := false, blockIndent := 0 } "replicas:3").2.2.1 =
      "replicas:3" ∧
    ("replicas:3" : String) ≠ "replicas: 3" ∧
    (repairLine { inBlock := false, blockIndent := 0 }
        "image: nginx other:b").2.2.1 = "image: nginx other:b" ∧
    ("image: nginx other:b" : String) ≠ "image: nginx other: b" := by
  refine ⟨by decide, by decide, by decide, by decide⟩

/-- C8 (amended): outside block-scalar state, line repair rewrites
`key:<letter>` to `key: <letter>` except directly after `http`/`https`
(`a https:b x:y` → `a https:b x: y`; `kind:Pod` → `kind: Pod`); a colon
followed by a non-letter is untouched (`replicas:3`); and one image-pattern
match anywhere exempts the whole line from the colon rewrite. -/
theorem c8_colon_repair_amended :
    (∀ s : String, hasImagePat (dashFix s).data = true →
      dashColonFix s = dashFix s)
    ∧ (repairLine { inBlock := false, blockIndent := 0 } "kind:Pod").2.2.1 =
        "kind: Pod"
    ∧ (repairLine { inBlock := false, blockIndent := 0 } "replicas:3").2.2.1 =
        "replicas:3"
    ∧ (repairLine { inBlock := false, blockIndent := 0 } "a https:b x:y").2.2.1 =
        "a https:b x: y" := by
  refine ⟨?_, by decide, by decide, by decide⟩
  intro s h
  unfold dashColonFix
  simp [h]

/-- Witness for C8's universally quantified exemption clause. -/
theorem c8_colon_repair_amended_witness :
    hasImagePat (dashFix "image: nginx other:b").data = true ∧
    dashColonFix "image: nginx other:b" = dashFix "image: nginx other:b" :=
  ⟨by decide, c8_colon_repair_amended.1 "image: nginx other:b" (by decide)⟩

/-!
### Claim C3 — indentation handling of the magnetic snap
-/

/-- The head surviving a `dropWhile` fails the predicate. -/
theorem dropWhile_head_false {p : Char → Bool} :
    ∀ (l : List Char) (c : Char) (t : List Char),
      l.dropWhile p = c :: t → p c = false := by
  intro l
  induction l with
  | nil => intro c t h; simp [List.dropWhile] at h
  | cons x xs ih =>
    intro c t h
    by_cases hx : p x
    · simp [List.dropWhile, hx] at h
      exact ih c t h
    · simp [List.dropWhile, hx] at h
      obtain ⟨h1, h2⟩ := h
      subst h1
      simpa using hx

/-- Leading spaces are consumed down to the first non-space head. -/
theorem dropWhile_replicate_spaces (n : Nat) (c : Char) (t : List Char)
    (hc : isPySpace c = false) :
    (List.replicate n ' ' ++ c :: t).dropWhile isPySpace = c :: t := by
  induction n with
  | zero => simp [List.dropWhile, hc]
  | succ m ih => simpa [List.replicate_succ, List.dropWhile, isPySpace] using ih

/-- The indent of an emitted snap line is its space prefix. -/
theorem lineIndent_replicate (n : Nat) (c : Char) (t : List Char)
    (hc : isPySpace c = false) :
    lineIndent ⟨List.replicate n ' ' ++ c :: t⟩ = n := by
  unfold lineIndent pyLstripL
  simp [dropWhile_replicate_spaces n c t hc]

/-- The grid snap always lands on the 2-space grid. -/
theorem pyRound2_even (n : Nat) : pyRound2 n % 2 = 0 := by
  unfold pyRound2
  by_cases h : n % 2 = 0
  · simp [h]
  · simp only [h, if_false]
    by_cases h2 : (n / 2) % 2 = 0 <;> simp [h2]

/-- One snap step: the emitted line is either the input line untouched
(blank/comment/protected) or has even indentation, and the dash anchor
stays `-1` or even. -/
theorem snapLine_props (ld : Int) (l : String)
    (hld : ld = -1 ∨ (0 ≤ ld ∧ ld % 2 = 0)) :
    ((snapLine ld l).2 = l ∨ lineIndent (snapLine ld l).2 % 2 = 0) ∧
    ((snapLine ld l).1 = -1 ∨
      (0 ≤ (snapLine ld l).1 ∧ (snapLine ld l).1 % 2 = 0)) := by
  unfold snapLine
  by_cases hb : (pyLstrip l = "" || strStartsWith (pyLstrip l) "#") = true
  · simp only [hb, if_pos]
    exact ⟨Or.inl trivial, hld⟩
  · simp only [hb, Bool.false_eq_true, if_false]
    by_cases hp : isProtectedStructure l = true
    · simp only [hp, if_pos]
      exact ⟨Or.inl trivial, Or.inl trivial⟩
    · simp only [hp, Bool.false_eq_true, if_false]
      have hne : pyLstrip l ≠ "" := by
        intro hcontr
        simp [hcontr] at hb
      obtain ⟨c, t, hct⟩ : ∃ c t, (pyLstrip l).data = c :: t := by
        cases hd : (pyLstrip l).data with
        | nil =>
          exfalso
          apply hne
          cases hpl : pyLstrip l with
          | mk d => simp [hpl] at hd; simp [hd]
        | cons c t => exact ⟨c, t, rfl⟩
      have hcs : isPySpace c = false := dropWhile_head_false l.data c t hct
      have hind : ∀ n : Nat,
          lineIndent ⟨List.replicate n ' ' ++ (pyLstrip l).data⟩ = n := by
        intro n
        rw [hct]
        exact lineIndent_replicate n c t hcs
      by_cases hdash : strStartsWith (pyLstrip l) "- " = true
      · simp only [hdash, if_pos]
        by_cases hcor : (decide (ld ≠ -1) && decide ((lineIndent l : Int) > ld) &&
            decide ((pyRound2 (lineIndent l) : Int) ≤ ld)) = true
        · simp only [hcor, if_pos]
          rcases hld with h | ⟨hge, hev⟩
          · simp [h] at hcor
          · constructor
            · right
              rw [hind]
              omega
            · right
              omega
        · simp only [hcor, Bool.false_eq_true, if_false]
          constructor
          · right
            rw [hind]
            exact pyRound2_even _
          · right
            have := pyRound2_even (lineIndent l)
            omega
      · simp only [hdash, Bool.false_eq_true, if_false]
        constructor
        · right
          rw [hind]
          exact pyRound2_even _
        · by_cases hlt : ((pyRound2 (lineIndent l) : Int) < ld)
          · simp only [hlt, if_pos]
            exact Or.inl trivial
          · simp only [hlt, if_neg, if_false]
            exact hld

/-- Every line the snap loop emits is an unmodified input line or sits
on the 2-space grid. -/
theorem snapLines_grid :
    ∀ (lines : List String) (ld : Int), (ld = -1 ∨ (0 ≤ ld ∧ ld % 2 = 0)) →
      ∀ out ∈ snapLines ld lines, out ∈ lines ∨ (lineIndent out) % 2 = 0 := by
  intro lines
  induction lines with
  | nil => intro ld hld out hout; simp [snapLines] at hout
  | cons l rest ih =>
    intro ld hld out hout
    simp only [snapLines] at hout
    rw [List.mem_cons] at hout
    obtain ⟨hprops, hinv⟩ := snapLine_props ld l hld
    rcases hout with h1 | h2
    · rcases hprops with he | hev
      · exact Or.inl (by rw [h1, he]; exact List.mem_cons_self _ _)
      · exact Or.inr (by rw [h1]; exact hev)
    · rcases ih (snapLine ld l).1 hinv out h2 with hm | he
      · exact Or.inl (List.mem_cons_of_mem _ hm)
      · exact Or.inr he

/-- Counterexample to C3 as stated: in `"a:\n b: 1"` the second line's
indent (1) is numerically greater than its enclosing scope's (0), yet the
snap flattens it to the same level as `a:` — reconstructed nesting does
not follow the relative order of source indents when they miss the
2-space grid. -/
theorem c3_magnetic_snap_counterexample :
    applyMagneticSnap "a:\n b: 1" = "a:\nb: 1" ∧
    lineIndent " b: 1" > lineIndent "a:" ∧
    ¬ lineIndent "b: 1" > lineIndent "a:" := by
  refine ⟨by decide, by decide, by decide⟩

/-- C3 (amended): the snap is grid-based, not magnitude-based — every
line it rewrites is emitted with an even (2-space-grid) indent, so an
odd 1-space-deeper child can land at its parent's level; only
consecutive dash lines get a magnitude correction, an originally-deeper
dash being forced 2 deeper than the previous dash when its grid snap
would not keep it deeper (second conjunct). -/
theorem c3_magnetic_snap_amended :
    (∀ (lines : List String) (out : String), out ∈ snapLines (-1) lines →
        out ∈ lines ∨ (lineIndent out) % 2 = 0)
    ∧ applyMagneticSnap "    - a\n     - b" = "    - a\n      - b" := by
  refine ⟨?_, by decide⟩
  intro lines out hout
  exact snapLines_grid lines (-1) (Or.inl rfl) out hout

/-- Witness for C3's universally quantified clause at a concrete line. -/
theorem c3_magnetic_snap_amended_witness :
    ("b: 1" ∈ snapLines (-1) [" b: 1"]) ∧
    ("b: 1" ∈ ([" b: 1"] : List String) ∨ lineIndent "b: 1" % 2 = 0) :=
  ⟨by decide, c3_magnetic_snap_amended.1 [" b: 1"] "b: 1" (by decide)⟩

/-!
### Claim C9 — resource-limit injection
-/

/-- A well-formed container is transformed exactly as `injectOne`
prescribes, flagging a modification iff `resources.limits` was absent. -/
theorem injectContainer_ok (cpu mem : String) (c : Node)
    (hc : containerOk c = true) :
    injectContainer cpu mem c = .ok (injectOne cpu mem c, !hasLimitsPath c) := by
  cases c with
  | map m =>
    unfold injectContainer injectOne hasLimitsPath
    cases hr : mapGet m "resources" with
    | none => simp [hr]
    | some r =>
      cases r with
      | map rm =>
        simp only [hr]
        by_cases hl : containsKey rm "limits" = true
        · simp [hl]
        · simp [hl]
      | str s => unfold containerOk at hc; simp [hr] at hc
      | intv n => unfold containerOk at hc; simp [hr] at hc
      | boolv b => unfold containerOk at hc; simp [hr] at hc
      | nullv => unfold containerOk at hc; simp [hr] at hc
      | arr l => unfold containerOk at hc; simp [hr] at hc
  | str s => unfold containerOk at hc; simp at hc
  | intv n => unfold containerOk at hc; simp at hc
  | boolv b => unfold containerOk at hc; simp at hc
  | nullv => unfold containerOk at hc; simp at hc
  | arr l => unfold containerOk at hc; simp at hc

/-- The container loop maps `injectOne` over a well-formed list and
reports whether any element was modified. -/
theorem injectContainers_ok (cpu mem : String) :
    ∀ (cs : List Node), (∀ c ∈ cs, containerOk c = true) →
    injectContainers cpu mem cs =
      .ok (cs.map (injectOne cpu mem), cs.any (fun c => !hasLimitsPath c)) := by
  intro cs
  induction cs with
  | nil => intro h; rfl
  | cons c rest ih =>
    intro h
    have hc : containerOk c = true := h c (List.mem_cons_self _ _)
    have hrest : ∀ x ∈ rest, containerOk x = true :=
      fun x hx => h x (List.mem_cons_of_mem _ hx)
    unfold injectContainers
    rw [injectContainer_ok cpu mem c hc, ih hrest]
    simp

/-- Counterexample to C9 as stated: a Deployment whose
`spec.template.spec.containers` is the scalar `"x"` (a malformed path)
makes the rule raise an uncaught `TypeError` — the shield aborts instead
of returning the document. -/
theorem c9_resource_limits_counterexample :
    shieldProtect "500m" "512Mi" docBadContainers = .error "TypeError" := by rfl

/-- C9 (amended): for a workload Kind with a well-formed
`spec.template.spec.containers` list, the rule rewrites exactly that
list, mapping `injectOne` over the containers and logging one warning
iff some container lacked `resources.limits` (first conjunct); a
container already carrying `resources.limits` is left exactly unchanged
(second conjunct); a document where the path stops short is returned
unchanged without aborting (third conjunct), as is one where `spec` is
bound to a non-dict — the `AttributeError` from `.get` is caught and the
rule treats the condition as not applicable (fourth conjunct); but a
containers value that is a non-empty scalar string raises an uncaught
`TypeError` that aborts the rule (fifth conjunct). -/
theorem c9_resource_limits_amended :
    (∀ (cpu mem : String) (es t1 t2 t3 : List (String × Node))
       (cs : List Node) (kd : String),
       mapGet es "kind" = some (Node.str kd) →
       workloadKinds.contains kd = true →
       mapGet es "spec" = some (Node.map t1) →
       mapGet t1 "template" = some (Node.map t2) →
       mapGet t2 "spec" = some (Node.map t3) →
       mapGet t3 "containers" = some (Node.arr cs) →
       (∀ c ∈ cs, containerOk c = true) →
       ruleInjectResourceLimits cpu mem (Node.map es) =
         .ok (Node.map (mapSet es "spec" (.map (mapSet t1 "template"
               (.map (mapSet t2 "spec" (.map (mapSet t3 "containers"
                 (.arr (cs.map (injectOne cpu mem)))))))))),
           if cs.any (fun c => !hasLimitsPath c) then
             "Warning: Injected default resource limits (" ++ mem ++ ")."
           else ""))
    ∧ (∀ (cpu mem : String) (c : Node), hasLimitsPath c = true →
        injectOne cpu mem c = c)
    ∧ (∀ (cpu mem : String) (es t1 t2 t3 : List (String × Node)) (kd : String),
       mapGet es "kind" = some (Node.str kd) →
       workloadKinds.contains kd = true →
       mapGet es "spec" = some (Node.map t1) →
       mapGet t1 "template" = some (Node.map t2) →
       mapGet t2 "spec" = some (Node.map t3) →
       mapGet t3 "containers" = none →
       ruleInjectResourceLimits cpu mem (Node.map es) = .ok (Node.map es, ""))
    ∧ (∀ (cpu mem : String) (es : List (String × Node)) (kd : String) (v : Node),
       mapGet es "kind" = some (Node.str kd) →
       workloadKinds.contains kd = true →
       mapGet es "spec" = some v →
       (∀ m, v ≠ Node.map m) →
       ruleInjectResourceLimits cpu mem (Node.map es) = .ok (Node.map es, ""))
    ∧ ruleInjectResourceLimits "500m" "512Mi" docBadContainers =
        .error "TypeError" := by
  refine ⟨?_, ?_, ?_, ?_, rfl⟩
  · intro cpu mem es t1 t2 t3 cs kd hk hw h1 h2 h3 h4 hcs
    unfold ruleInjectResourceLimits
    simp only [hk, hw, if_pos, h1, h2, h3, h4]
    rw [injectContainers_ok cpu mem cs hcs]
    by_cases hany : cs.any (fun c => !hasLimitsPath c) = true
    · simp [hany]
    · simp [hany]
  · intro cpu mem c hl
    cases c with
    | map m =>
      unfold hasLimitsPath at hl
      unfold injectOne
      cases hr : mapGet m "resources" with
      | none => simp [hr] at hl
      | some r =>
        cases r with
        | map rm =>
          simp only [hr] at hl
          simp [hr, hl]
        | str s => simp [hr] at hl
        | intv n => simp [hr] at hl
        | boolv b => simp [hr] at hl
        | nullv => simp [hr] at hl
        | arr l => simp [hr] at hl
    | str s => simp [hasLimitsPath] at hl
    | intv n => simp [hasLimitsPath] at hl
    | boolv b => simp [hasLimitsPath] at hl
    | nullv => simp [hasLimitsPath] at hl
    | arr l => simp [hasLimitsPath] at hl
  · intro cpu mem es t1 t2 t3 kd hk hw h1 h2 h3 h4
    unfold ruleInjectResourceLimits
    simp [hk, hw, h1, h2, h3, h4]
  · intro cpu mem es kd v hk hw h1 hv
    unfold ruleInjectResourceLimits
    cases v with
    | map m => exact absurd rfl (hv m)
    | str s => simp [hk, hw, h1]
    | intv n => simp [hk, hw, h1]
    | boolv b => simp [hk, hw, h1]
    | nullv => simp [hk, hw, h1]
    | arr l => simp [hk, hw, h1]

/-- Witness for C9's universally quantified clauses at a concrete
Deployment with one limit-less container. -/
theorem c9_resource_limits_amended_witness :
    (∀ c ∈ [Node.map [("name", Node.str "app")]], containerOk c = true) ∧
    ruleInjectResourceLimits "500m" "512Mi"
      (Node.map [("kind", Node.str "Deployment"),
                 ("spec", Node.map [("template", Node.map [("spec",
                   Node.map [("containers",
                     Node.arr [Node.map [("name", Node.str "app")]])])])])]) =
      .ok (Node.map (mapSet
             [("kind", Node.str "Deployment"),
              ("spec", Node.map [("template", Node.map [("spec",
                Node.map [("containers",
                  Node.arr [Node.map [("name", Node.str "app")]])])])])]
             "spec" (.map (mapSet [("template", Node.map [("spec",
                Node.map [("containers",
                  Node.arr [Node.map [("name", Node.str "app")]])])])]
               "template" (.map (mapSet [("spec",
                Node.map [("containers",
                  Node.arr [Node.map [("name", Node.str "app")]])])]
                 "spec" (.map (mapSet
                   [("containers",
                     Node.arr [Node.map [("name", Node.str "app")]])]
                   "containers"
                   (.arr ([Node.map [("name", Node.str "app")]].map
                     (injectOne "500m" "512Mi")))))))))),
        if [Node.map [("name", Node.str "app")]].any
            (fun c => !hasLimitsPath c) then
          "Warning: Injected default resource limits (" ++ "512Mi" ++ ")."
        else "") :=
  ⟨by decide,
   c9_resource_limits_amended.1 "500m" "512Mi" _ _ _ _ _ "Deployment"
     rfl rfl rfl rfl rfl rfl (by decide)⟩


/-!
### Claims C1 and C2 — the orchestrator's success and write derivations
-/

/-- Through the Pass 2 loop, `validation_passed` equals acceptance of
every shielded document by the embedded validator. -/
theorem processDocsGo_vpass (cat : Catalog) (cpu mem : String) (strict : Bool) :
    ∀ (docs accDocs : List Node) (vp : Bool) (verr : String)
      (logs : List String) (pdocs : List Node) (vpass : Bool) (v2 : String)
      (l2 : List String),
      vp = accDocs.all (validatorAccepts cat strict) →
      processDocsGo cat cpu mem strict docs accDocs vp verr logs =
        .ok (pdocs, vpass, v2, l2) →
      vpass = pdocs.all (validatorAccepts cat strict) := by
  intro docs
  induction docs with
  | nil =>
    intro accDocs vp verr logs pdocs vpass v2 l2 hvp h
    unfold processDocsGo at h
    injection h with h
    injection h with h1 h
    injection h with h2 h
    subst h1
    subst h2
    rw [hvp, List.all_eq, List.all_eq]
    simp [List.mem_reverse]
  | cons d rest ih =>
    intro accDocs vp verr logs pdocs vpass v2 l2 hvp h
    unfold processDocsGo at h
    cases hs : shieldProtect cpu mem d with
    | error e => simp only [hs] at h; exact absurd h (by simp)
    | ok pr =>
      obtain ⟨pd, plogs⟩ := pr
      simp only [hs] at h
      cases hv : validateReconstruction cat pd strict with
      | error e => simp only [hv] at h; exact absurd h (by simp)
      | ok vr =>
        obtain ⟨valid, err⟩ := vr
        simp only [hv] at h
        apply ih (pd :: accDocs) (vp && valid) _ _ pdocs vpass v2 l2 _ h
        rw [hvp]
        simp [validatorAccepts, hv, List.all_cons]
        cases valid <;> simp [Bool.and_comm]

/-- Clearing a flag on a failed write, as a boolean identity. -/
theorem bool_if_clear (c x : Bool) : (if c = true then false else x) = (x && !c) := by
  cases c <;> simp

/-- Counterexample to C1 as stated: an empty file (no kind, no
documents) is exported unchanged, and the report's `success` field is
`true` even though no identity was detected and no document was
reconstructed — `"success": success or not is_modified` makes unmodified
content sufficient. -/
theorem c1_report_success_counterexample :
    ((auditCore [] "500m" "512Mi" (fun _ => "") "" none none 0 [] true false
        false false).toOption.map Report.success = some true) ∧
    kindTruthy none = false := ⟨rfl, rfl⟩

/-- C1 (amended): for every file processed without an engine exception,
the report's `success` field is true iff (a kind identity was detected,
at least one document was reconstructed, and every shielded document
passes validation) OR the trimmed exported text equals the trimmed
original; a failing atomic write additionally clears it. -/
theorem c1_report_success_amended (cat : Catalog) (cpu mem : String)
    (exportFn : List Node → String) (rawText : String)
    (kind apiVersion : Option String) (shardCount : Nat)
    (healedDocs : List Node) (dryRun forceWrite strict writeFails : Bool)
    (pdocs : List Node) (vpass : Bool) (verr : String) (logs : List String)
    (r : Report)
    (hp : processDocs cat cpu mem strict healedDocs = .ok (pdocs, vpass, verr, logs))
    (hr : auditCore cat cpu mem exportFn rawText kind apiVersion shardCount
        healedDocs dryRun forceWrite strict writeFails = .ok r) :
    r.success =
      (((kindTruthy kind && !pdocs.isEmpty &&
          pdocs.all (validatorAccepts cat strict)) ||
        !(decide (pyStrip rawText ≠ pyStrip (exportFn pdocs)))) &&
       !(r.writeAttempted && writeFails)) := by
  have hv : vpass = pdocs.all (validatorAccepts cat strict) :=
    processDocsGo_vpass cat cpu mem strict healedDocs [] true "" []
      pdocs vpass verr logs (by simp) hp
  unfold auditCore at hr
  rw [hp] at hr
  simp only at hr
  injection hr with hr
  subst hr
  simp only [hv, bool_if_clear]

/-- Witness for C1 at the empty-file inputs. -/
theorem c1_report_success_amended_witness :
    processDocs [] "500m" "512Mi" false ([] : List Node) =
      .ok ([], true, "", []) ∧
    auditCore [] "500m" "512Mi" (fun _ => "") "" none none 0 [] true false
        false false =
      .ok { success := true, partHeal := false, status := "UNCHANGED",
            kind := none, apiVersion := none, writeAttempted := false,
            written := false, healedContent := none, logicLogs := [],
            validationError := "" } ∧
    (true : Bool) =
      (((kindTruthy none && !(List.isEmpty ([] : List Node)) &&
          ([] : List Node).all (validatorAccepts [] false)) ||
        !(decide (pyStrip "" ≠ pyStrip ((fun _ => "") ([] : List Node))))) &&
       !(false && false)) :=
  ⟨rfl, rfl,
   c1_report_success_amended [] "500m" "512Mi" (fun _ => "") "" none none 0 [] true false false
     false [] true "" []
     { success := true, partHeal := false, status := "UNCHANGED",
       kind := none, apiVersion := none, writeAttempted := false,
       written := false, healedContent := none, logicLogs := [],
       validationError := "" } rfl rfl⟩

/-- C2: a write is attempted iff dry-run is off, the trimmed export
differs from the trimmed original, and either the derived success holds
(kind detected, some document, all validated) or the heal is partial
(no success but at least one shard) with the force flag set. -/
theorem c2_write_policy (cat : Catalog) (cpu mem : String)
    (exportFn : List Node → String) (rawText : String)
    (kind apiVersion : Option String) (shardCount : Nat)
    (healedDocs : List Node) (dryRun forceWrite strict writeFails : Bool)
    (pdocs : List Node) (vpass : Bool) (verr : String) (logs : List String)
    (r : Report)
    (hp : processDocs cat cpu mem strict healedDocs = .ok (pdocs, vpass, verr, logs))
    (hr : auditCore cat cpu mem exportFn rawText kind apiVersion shardCount
        healedDocs dryRun forceWrite strict writeFails = .ok r) :
    r.writeAttempted =
      (!dryRun && decide (pyStrip rawText ≠ pyStrip (exportFn pdocs)) &&
        ((kindTruthy kind && !pdocs.isEmpty &&
            pdocs.all (validatorAccepts cat strict)) ||
         (!(kindTruthy kind && !pdocs.isEmpty &&
            pdocs.all (validatorAccepts cat strict)) &&
           decide (0 < shardCount) && forceWrite))) := by
  have hv : vpass = pdocs.all (validatorAccepts cat strict) :=
    processDocsGo_vpass cat cpu mem strict healedDocs [] true "" []
      pdocs vpass verr logs (by simp) hp
  unfold auditCore at hr
  rw [hp] at hr
  simp only at hr
  injection hr with hr
  subst hr
  simp only [hv]

/-- Witness for C2 at inputs that do attempt a write (partial heal with
force). -/
theorem c2_write_policy_witness :
    processDocs [] "500m" "512Mi" false ([] : List Node) =
      .ok ([], true, "", []) ∧
    auditCore [] "500m" "512Mi" (fun _ => "x") "" none none 1 [] false true
        false false =
      .ok { success := false, partHeal := true, status := "PARTIAL",
            kind := none, apiVersion := none, writeAttempted := true,
            written := true, healedContent := some "x", logicLogs := [],
            validationError := "" } ∧
    (true : Bool) =
      (!false && decide (pyStrip "" ≠ pyStrip ((fun _ => "x") ([] : List Node))) &&
        ((kindTruthy none && !(List.isEmpty ([] : List Node)) &&
            ([] : List Node).all (validatorAccepts [] false)) ||
         (!(kindTruthy none && !(List.isEmpty ([] : List Node)) &&
            ([] : List Node).all (validatorAccepts [] false)) &&
           decide (0 < 1) && true))) :=
  ⟨rfl, rfl,
   c2_write_policy [] "500m" "512Mi" (fun _ => "x") "" none none 1 [] false true false
     false [] true "" []
     { success := false, partHeal := true, status := "PARTIAL",
       kind := none, apiVersion := none, writeAttempted := true,
       written := true, healedContent := some "x", logicLogs := [],
       validationError := "" } rfl rfl⟩


end Kubecuro
